import Mathlib

/-!
Verification of the seq2seq inference driver (`bin/infer.py`) and the
training-utility behaviours exercised by `seq2seq/test/train_utils_test.py`.

The pure logic of `infer.py` (command-line flag record, prediction-key
filtering, the UNK-replacement precondition check, prediction-length
computation, beam-0 selection, attention-score slicing, the sentence
post-processing chain, and beam-search accumulation) is embedded directly
from the source.  Functions of the `seq2seq` package that the repository
only tests or calls (`unk_replace`, `create_learning_rate_decay_fn`,
`TrainOptions`, `get_rnn_cell`) are modelled from the specification, as
noted in their doc comments.
-/

namespace Infer

/-- The command-line flags of `bin/infer.py` (the `tf.flags.DEFINE_*` block),
with their declared default values.  String flags that default to `None`
are `Option String`. -/
structure Flags where
  source : Option String := none
  model_dir : Option String := none
  checkpoint_path : Option String := none
  delimiter : String := " "
  batch_size : Nat := 32
  input_pipeline_def : Option String := none
  hparams : Option String := none
  unk_replace : Bool := false
  unk_mapping : Option String := none
  dump_attention_dir : Option String := none
  dump_attention_no_plot : Option String := none
  dump_beams : Option String := none

/-- The base `prediction_keys` set built in `main` (infer.py lines 131-133). -/
def basePredictionKeys : List String :=
  ["predicted_tokens", "features.source_len", "features.source_tokens",
   "attention_scores"]

/-- The beam-search keys added to `prediction_keys` when `dump_beams` is set
(infer.py lines 135-140). -/
def beamKeys : List String :=
  ["beam_search_output.predicted_ids",
   "beam_search_output.beam_parent_ids",
   "beam_search_output.scores",
   "beam_search_output.log_probs"]

/-- The final `prediction_keys` set of `main`: the base keys, extended with
the beam keys when `dump_beams` is set, and with `"attention_scores"`
re-added inside the UNK-replacement branch (infer.py line 148; a no-op
since the base set already holds it). -/
def predictionKeysOf (flags : Flags) : List String :=
  let keys := basePredictionKeys
  let keys := if flags.dump_beams.isSome then keys ++ beamKeys else keys
  let keys := if flags.unk_replace then keys.insert "attention_scores" else keys
  keys

/-- The UNK-replacement precondition check of `main` (infer.py lines
143-147): when the `unk_replace` flag is set and the predictions dictionary
has no `"attention_scores"` key, a `ValueError` is raised.  This is the
only `raise` statement in `main`; every other failure comes from external
framework calls.  The predictions dictionary is modelled as an association
list. -/
def mainUnkCheck {α : Type} (flags : Flags) (predictions : List (String × α)) :
    Except String Unit :=
  if flags.unk_replace then
    if (predictions.map Prod.fst).contains "attention_scores" then
      Except.ok ()
    else
      Except.error "To perform UNK replacement you must use a model class that outputs attention scores."
  else
    Except.ok ()

/-- The prediction-dictionary filter of `main` (infer.py line 155):
`predictions = {k: v for k, v in predictions.items() if k in prediction_keys}`. -/
def filterPredictions {α : Type} (keys : List String)
    (predictions : List (String × α)) : List (String × α) :=
  predictions.filter (fun kv => keys.contains kv.1)

/-- `get_prediction_length` (infer.py lines 72-79): the index of the first
`"SEQUENCE_END"` token plus one, or the full token count when no such token
occurs.  Embeds `next(((i + 1) for i, _ in tokens_iter if _ == "SEQUENCE_END"),
len(...))` as a direct recursion on the token list. -/
def get_prediction_length : List String → Nat
  | [] => 0
  | t :: ts => if t = "SEQUENCE_END" then 1 else 1 + get_prediction_length ts

/-- The decoded `predicted_tokens` value of a predictions dictionary: a
one-dimensional token array, or a two-dimensional `[time, beam]` array when
beam search was used. -/
inductive TokArray where
  | one (toks : List String)
  | two (rows : List (List String))

/-- The beam selection of `main` (infer.py lines 195-197): when
`predicted_tokens` has more than one dimension, take the first beam
(`predicted_tokens[:, 0]`, i.e. entry 0 of every row); otherwise use the
array as-is. -/
def selectTokens : TokArray → List String
  | TokArray.one toks => toks
  | TokArray.two rows => rows.map (fun r => r.headD "")

/-- Python `delim.join(tokens)` over character lists: the tokens
interleaved with the delimiter. -/
def joinChars (delim : List Char) : List String → List Char
  | [] => []
  | t :: ts =>
    match ts with
    | [] => t.data
    | _ :: _ => t.data ++ delim ++ joinChars delim ts

/-- Python `s.split(pat)[0]` for a non-empty pattern: the characters before
the first occurrence of `pat`, or all of `s` when `pat` does not occur. -/
def takeBefore (pat : List Char) : List Char → List Char
  | [] => []
  | c :: rest =>
    if pat.isPrefixOf (c :: rest) then [] else c :: takeBefore pat rest

/-- Fuel-driven worker for `removeAll`; the fuel bounds the number of
consumed characters, so recursion is structural. -/
def removeAllGo (pat : List Char) : Nat → List Char → List Char
  | _, [] => []
  | 0, s => s
  | fuel + 1, c :: rest =>
    if pat.isPrefixOf (c :: rest) then
      removeAllGo pat fuel (rest.drop (pat.length - 1))
    else c :: removeAllGo pat fuel rest

/-- Python `s.replace(pat, "")` for a non-empty pattern: remove every
non-overlapping occurrence of `pat`, scanning left to right. -/
def removeAll (pat s : List Char) : List Char := removeAllGo pat s.length s

/-- Python `s.strip()`: drop leading and trailing whitespace characters. -/
def trimChars (s : List Char) : List Char :=
  ((s.dropWhile Char.isWhitespace).reverse.dropWhile Char.isWhitespace).reverse

/-- Python `delim.join(tokens)` as a string: the plain delimiter-join with
no post-processing. -/
def strJoin (delim : String) (tokens : List String) : String :=
  String.mk (joinChars delim.data tokens)

/-- The sentence post-processing of `main` (infer.py lines 236-239):
join the tokens on the delimiter, keep the part before the first
`"SEQUENCE_END"` occurrence (`.split("SEQUENCE_END")[0]`), drop the BPE
continuation markers (`.replace("@@ ", "")`) and strip surrounding
whitespace (`.strip()`). -/
def sentOf (delim : String) (tokens : List String) : String :=
  String.mk
    (trimChars
      (removeAll "@@ ".data
        (takeBefore "SEQUENCE_END".data (joinChars delim.data tokens))))

/-- The index of the first occurrence of the maximal entry of a row, i.e.
`numpy.argmax` on a one-dimensional array (0 on the empty row). -/
def argmaxIdx : List ℚ → Nat
  | [] => 0
  | a :: as => List.indexOf (as.foldl max a) (a :: as)

/-- Modelled from the spec: `unk_replace` of `seq2seq.inference` is not under
`src/` (infer.py only imports and calls it).  Per the spec, UNK replacement
is "a table lookup/copy based on externally computed attention scores",
"substituting an unknown-word placeholder token with a source word chosen
via attention alignment"; with a probability mapping the copied word is
further mapped through that dictionary. -/
def unk_replace (source_tokens predicted_tokens : List String)
    (attention_scores : List (List ℚ))
    (mapping : Option (List (String × String))) : List String :=
  (predicted_tokens.zip attention_scores).map (fun tr =>
    if tr.1 = "UNK" then
      let j := argmaxIdx tr.2
      let w := source_tokens.getD j tr.1
      match mapping with
      | some mp => (mp.lookup w).getD w
      | none => w
    else tr.1)

/-- One iterated predictions dictionary of the decode loop, with the fields
`main` reads: decoded predicted tokens, decoded source tokens, the source
length, the attention-score matrix (rows indexed by target position,
columns by source position) and the four beam-search-output arrays. -/
structure PredRecord where
  predictedTokens : TokArray
  sourceTokens : List String
  sourceLen : Nat
  attentionScores : List (List ℚ)
  beamPredictedIds : List Int
  beamParentIds : List Int
  beamScores : List ℚ
  beamLogProbs : List ℚ

/-- The attention-score slice of `main` (infer.py line 208):
`attention_scores[:, :source_len - 1]`, keeping only the first
`source_len - 1` columns of every row so that UNK replacement cannot pick
the final source position (the `SEQUENCE_END` marker). -/
def slicedAttention (p : PredRecord) : List (List ℚ) :=
  p.attentionScores.map (fun row => row.take (p.sourceLen - 1))

/-- One iteration of the decode loop of `main` (infer.py lines 189-241),
restricted to the printed sentence: select the first beam, optionally run
UNK replacement on the sliced attention scores, and post-process the
joined sentence. -/
def processPrediction (flags : Flags)
    (mapping : Option (List (String × String))) (p : PredRecord) : String :=
  let predicted := selectTokens p.predictedTokens
  let predicted :=
    if flags.unk_replace then
      unk_replace p.sourceTokens predicted (slicedAttention p) mapping
    else predicted
  sentOf flags.delimiter predicted

/-- The `beam_accum` accumulator of `main` (infer.py lines 180-185). -/
@[ext]
structure BeamAccum where
  predicted_ids : List (List Int)
  beam_parent_ids : List (List Int)
  scores : List (List ℚ)
  log_probs : List (List ℚ)

/-- The empty `beam_accum` (infer.py lines 180-185). -/
def initBeamAccum : BeamAccum :=
  { predicted_ids := [], beam_parent_ids := [], scores := [], log_probs := [] }

/-- The per-iteration beam accumulation of `main` (infer.py lines 226-234):
when `dump_beams` is set, append the four `beam_search_output.*` values of
the current prediction to the accumulator. -/
def beamStep (flags : Flags) (acc : BeamAccum) (p : PredRecord) : BeamAccum :=
  if flags.dump_beams.isSome then
    { predicted_ids := acc.predicted_ids ++ [p.beamPredictedIds],
      beam_parent_ids := acc.beam_parent_ids ++ [p.beamParentIds],
      scores := acc.scores ++ [p.beamScores],
      log_probs := acc.log_probs ++ [p.beamLogProbs] }
  else acc

/-- The beam archive written at the end of `main` (infer.py lines 249-250):
when `dump_beams` is set, `np.savez(FLAGS.dump_beams, **beam_accum)` writes
the four accumulated arrays; otherwise no archive is written (`none`). -/
def beamArchiveOf (flags : Flags) (preds : List PredRecord) : Option BeamAccum :=
  let acc := preds.foldl (beamStep flags) initBeamAccum
  if flags.dump_beams.isSome then some acc else none

end Infer

namespace TrainingUtils

/-- Modelled from the spec: `create_learning_rate_decay_fn` of
`seq2seq.training.utils` is not under `src/` (only its tests are, in
`train_utils_test.py` lines 185-232).  Per the spec it is "the exact
piecewise exponential formula for learning-rate decay including pre-start,
in-range, and post-stop clamping, plus clamping to a minimum rate": before
`start_decay_at` the rate is unchanged; between `start_decay_at` and
`stop_decay_at` it is `lr * decay_rate ^ ((step - start_decay_at) /
decay_steps)` (continuous, `staircase=False`); past `stop_decay_at` the
step is frozen at `stop_decay_at`; and when a `min_learning_rate` is given
the result is clamped from below by it. -/
noncomputable def exponential_decay (decay_steps : Nat) (decay_rate : ℝ)
    (start_decay_at stop_decay_at : Nat) (min_learning_rate : Option ℝ)
    (lr : ℝ) (global_step : Nat) : ℝ :=
  let effStep : Nat := min global_step stop_decay_at
  let decayed : ℝ :=
    lr * decay_rate ^ (((effStep : ℝ) - (start_decay_at : ℝ)) / (decay_steps : ℝ))
  let result : ℝ := if global_step < start_decay_at then lr else decayed
  match min_learning_rate with
  | some m => max result m
  | none => result

/-- Modelled from the spec: the `TrainOptions` record of
`seq2seq.training.utils` is not under `src/` (only its round-trip tests
are, in `train_utils_test.py` lines 81-132).  It is "a small options
record" holding hyperparameters, a model class name and the two vocabulary
paths; `model_class` and the vocabulary paths may be `None`. -/
structure TrainOptions where
  hparams : List (String × Int)
  model_class : Option String
  source_vocab_path : Option String
  target_vocab_path : Option String
  deriving DecidableEq

/-- A JSON-like value, the serialization target of `TrainOptions.dump`
(the real code writes `json.dumps(options_dict)` to a file in the model
directory). -/
inductive JValue where
  | null
  | str (s : String)
  | num (n : Int)
  | obj (fields : List (String × JValue))

/-- Encode an optional string as a JSON value (`None` becomes `null`). -/
def optStrToJ : Option String → JValue
  | none => JValue.null
  | some s => JValue.str s

/-- Decode an optional string from a JSON value. -/
def jToOptStr : JValue → Option String
  | JValue.str s => some s
  | _ => none

/-- Decode a hyperparameter dictionary from JSON object fields. -/
def jFieldsToHparams : List (String × JValue) → Option (List (String × Int))
  | [] => some []
  | (k, JValue.num n) :: rest =>
      (jFieldsToHparams rest).map (fun r => (k, n) :: r)
  | _ => none

/-- Modelled from the spec: the JSON dictionary `TrainOptions.dump` writes,
with one entry per field of the record. -/
def TrainOptions.toJson (o : TrainOptions) : JValue :=
  JValue.obj
    [("hparams", JValue.obj (o.hparams.map (fun kv => (kv.1, JValue.num kv.2)))),
     ("model_class", optStrToJ o.model_class),
     ("source_vocab_path", optStrToJ o.source_vocab_path),
     ("target_vocab_path", optStrToJ o.target_vocab_path)]

/-- Modelled from the spec: parsing the JSON dictionary back into a
`TrainOptions` record, as `TrainOptions.load` does. -/
def TrainOptions.ofJson : JValue → Option TrainOptions
  | JValue.obj fields =>
    match fields.lookup "hparams" with
    | some (JValue.obj hfields) =>
        (jFieldsToHparams hfields).map (fun hp =>
          { hparams := hp,
            model_class := (fields.lookup "model_class").bind jToOptStr,
            source_vocab_path :=
              (fields.lookup "source_vocab_path").bind jToOptStr,
            target_vocab_path :=
              (fields.lookup "target_vocab_path").bind jToOptStr })
    | _ => none
  | _ => none

/-- A model directory, reduced to the one file the options record lives in
(`train_options.json`); `none` when the file does not exist. -/
structure ModelDir where
  train_options_file : Option JValue := none

/-- Modelled from the spec: `TrainOptions.dump` serializes the record to
the options file of the model directory. -/
def TrainOptions.dump (o : TrainOptions) (dir : ModelDir) : ModelDir :=
  { dir with train_options_file := some o.toJson }

/-- Modelled from the spec: `TrainOptions.load` reads the options file of
the model directory and parses it back into a record. -/
def TrainOptions.load (dir : ModelDir) : Option TrainOptions :=
  dir.train_options_file.bind TrainOptions.ofJson

/-- The constructor signature of an RNN cell class: its name and the
argument names its constructor accepts. -/
structure CellSignature where
  className : String
  ctorArgNames : List String

/-- An RNN cell as observed by the tests: its class and its number of
units. -/
structure RNNCellModel where
  className : String
  num_units : Nat

/-- The `output_size` of a cell equals its number of units. -/
def RNNCellModel.output_size (c : RNNCellModel) : Nat := c.num_units

/-- Modelled from the spec: `get_rnn_cell` of `seq2seq.training.utils` is
not under `src/` (only its tests are, in `train_utils_test.py` lines
36-78).  Per the spec it rejects "unknown constructor arguments": every
extra keyword argument of the cell spec must be an argument name of the
named cell class's constructor, else a `ValueError` is raised; otherwise a
cell of the named class with the requested number of units is built. -/
def get_rnn_cell (sig : CellSignature) (num_units : Nat)
    (extraArgNames : List String) : Except String RNNCellModel :=
  match extraArgNames.find? (fun k => !sig.ctorArgNames.contains k) with
  | some k => Except.error (sig.className ++ " cell does not accept argument " ++ k)
  | none => Except.ok { className := sig.className, num_units := num_units }

end TrainingUtils

section Claims

open Infer TrainingUtils

/-- Unfolding lemma: `get_prediction_length` on the empty token list. -/
theorem get_prediction_length_nil : Infer.get_prediction_length [] = 0 := rfl

/-- Unfolding lemma: `get_prediction_length` on a token cons cell. -/
theorem get_prediction_length_cons (t : String) (ts : List String) :
    Infer.get_prediction_length (t :: ts)
      = if t = "SEQUENCE_END" then 1 else 1 + Infer.get_prediction_length ts := rfl

/-- Looking up a key in a key-filtered association list: the value survives
exactly when the key is in the allowed key list. -/
theorem lookup_filter {α : Type} (keys : List String)
    (preds : List (String × α)) (k : String) :
    (preds.filter (fun kv => keys.contains kv.1)).lookup k
      = if k ∈ keys then preds.lookup k else none := by
  induction preds with
  | nil => simp
  | cons hd tl ih =>
    obtain ⟨a, b⟩ := hd
    rw [List.filter_cons]
    by_cases h1 : a ∈ keys
    · rw [if_pos (by simpa using h1)]
      by_cases hk : k = a
      · subst hk
        simp [h1]
      · rw [List.lookup_cons, List.lookup_cons, beq_false_of_ne hk]
        exact ih
    · rw [if_neg (by simpa using h1)]
      by_cases hk : k = a
      · subst hk
        rw [ih, if_neg h1, if_neg h1]
      · rw [ih, List.lookup_cons, beq_false_of_ne hk]

/-- Claim C1: `main` raises an error if and only if the `unk_replace` flag
is set and the predictions dictionary has no `"attention_scores"` key; in
every other configuration the check succeeds, and `main` contains no other
raise of its own. -/
theorem unk_error_iff {α : Type} (flags : Infer.Flags)
    (predictions : List (String × α)) :
    (∃ e, Infer.mainUnkCheck flags predictions = Except.error e) ↔
      (flags.unk_replace = true ∧
        "attention_scores" ∉ predictions.map Prod.fst) := by
  unfold Infer.mainUnkCheck
  by_cases hu : flags.unk_replace
  · by_cases hc : "attention_scores" ∈ predictions.map Prod.fst
    · simp [hu, hc]
    · simp [hu, hc]
  · simp [hu]

/-- Claim C2: the prediction filter of `main` is a set intersection: a key
survives exactly when it is in the original dictionary and in the allowed
key set, keeping its original value; and the allowed key set is the four
base keys, extended with the four beam-search keys exactly when
`dump_beams` is set. -/
theorem filtered_keys_intersection {α : Type} (flags : Infer.Flags)
    (preds : List (String × α)) (k : String) :
    ((Infer.filterPredictions (Infer.predictionKeysOf flags) preds).lookup k
        = if k ∈ Infer.predictionKeysOf flags then preds.lookup k else none)
    ∧ (k ∈ Infer.predictionKeysOf flags ↔
        (k ∈ Infer.basePredictionKeys ∨
          (flags.dump_beams.isSome = true ∧ k ∈ Infer.beamKeys))) := by
  constructor
  · exact lookup_filter _ _ _
  · have hbase : "attention_scores" ∈ Infer.basePredictionKeys := by
      simp [Infer.basePredictionKeys]
    have hkeys : Infer.predictionKeysOf flags
        = if flags.dump_beams.isSome then
            Infer.basePredictionKeys ++ Infer.beamKeys
          else Infer.basePredictionKeys := by
      unfold Infer.predictionKeysOf
      by_cases hb : flags.dump_beams.isSome
      · by_cases hu : flags.unk_replace
        · simp only [hb, hu, if_true]
          exact List.insert_of_mem (List.mem_append_left _ hbase)
        · simp [hb, hu]
      · by_cases hu : flags.unk_replace
        · simp only [hb, hu, if_true, if_false, Bool.false_eq_true, ite_false]
          exact List.insert_of_mem hbase
        · simp [hb, hu]
    rw [hkeys]
    by_cases hb : flags.dump_beams.isSome
    · simp [hb, List.mem_append]
    · simp [hb]

/-- Claim C9: `get_prediction_length` returns `i + 1` where `i` is the
index of the first `"SEQUENCE_END"` token, the full token count when no
such token occurs, and never exceeds the token count. -/
theorem prediction_length_first_end (toks : List String) :
    (∀ i, toks.get? i = some "SEQUENCE_END" →
        (∀ j, j < i → toks.get? j ≠ some "SEQUENCE_END") →
        Infer.get_prediction_length toks = i + 1)
    ∧ ("SEQUENCE_END" ∉ toks →
        Infer.get_prediction_length toks = toks.length)
    ∧ Infer.get_prediction_length toks ≤ toks.length := by
  induction toks with
  | nil => refine ⟨?_, ?_, ?_⟩ <;> simp [get_prediction_length_nil]
  | cons t ts ih =>
    refine ⟨?_, ?_, ?_⟩
    · intro i hi hmin
      by_cases ht : t = "SEQUENCE_END"
      · cases i with
        | zero => simp [get_prediction_length_cons, ht]
        | succ i' =>
          exact absurd (by simp [ht] : (t :: ts).get? 0 = some "SEQUENCE_END")
            (hmin 0 (Nat.succ_pos _))
      · cases i with
        | zero =>
          exact absurd (by simpa using hi) ht
        | succ i' =>
          have h1 : ts.get? i' = some "SEQUENCE_END" := by simpa using hi
          have h2 : ∀ j, j < i' → ts.get? j ≠ some "SEQUENCE_END" := by
            intro j hj
            simpa using hmin (j + 1) (Nat.succ_lt_succ hj)
          have hrec := ih.1 i' h1 h2
          rw [get_prediction_length_cons, if_neg ht, hrec]
          omega
    · intro hnm
      have ht : t ≠ "SEQUENCE_END" := fun h => hnm (by simp [h])
      have hts : "SEQUENCE_END" ∉ ts := fun h => hnm (List.mem_cons_of_mem _ h)
      rw [get_prediction_length_cons, if_neg ht, ih.2.1 hts]
      simp [Nat.add_comm]
    · by_cases ht : t = "SEQUENCE_END"
      · rw [get_prediction_length_cons, if_pos ht]
        simp
      · rw [get_prediction_length_cons, if_neg ht]
        have := ih.2.2
        simp only [List.length_cons]
        omega

/-- A sample prediction record holding a one-dimensional token array, with
all other fields empty. -/
def samplePred (toks : List String) : Infer.PredRecord :=
  { predictedTokens := Infer.TokArray.one toks, sourceTokens := [],
    sourceLen := 0, attentionScores := [], beamPredictedIds := [],
    beamParentIds := [], beamScores := [], beamLogProbs := [] }

/-- Claim C3 counterexample: with the default flags (delimiter a single
space, no UNK replacement) and predicted tokens `["hello", "SEQUENCE_END"]`,
the printed sentence is `"hello"`, not the plain join
`"hello SEQUENCE_END"`: the decode loop truncates the join at the first
`"SEQUENCE_END"` occurrence, removes `"@@ "` and trims whitespace. -/
theorem printed_not_plain_join :
    Infer.processPrediction {} none (samplePred ["hello", "SEQUENCE_END"])
      ≠ Infer.strJoin " " ["hello", "SEQUENCE_END"] := by
  decide

/-- Claim C3 (amended): the sentence printed for a prediction is the
delimiter-join of its selected tokens, truncated at the first
`"SEQUENCE_END"` occurrence, with `"@@ "` occurrences removed and
surrounding whitespace stripped; in particular, whenever the join is left
unchanged by each of these three post-processing steps (and UNK
replacement is off), the printed sentence is exactly the join. -/
theorem printed_sentence_join (flags : Infer.Flags)
    (mapping : Option (List (String × String))) (p : Infer.PredRecord)
    (hunk : flags.unk_replace = false)
    (h1 : Infer.takeBefore "SEQUENCE_END".data
        (Infer.joinChars flags.delimiter.data (Infer.selectTokens p.predictedTokens))
        = Infer.joinChars flags.delimiter.data (Infer.selectTokens p.predictedTokens))
    (h2 : Infer.removeAll "@@ ".data
        (Infer.joinChars flags.delimiter.data (Infer.selectTokens p.predictedTokens))
        = Infer.joinChars flags.delimiter.data (Infer.selectTokens p.predictedTokens))
    (h3 : Infer.trimChars
        (Infer.joinChars flags.delimiter.data (Infer.selectTokens p.predictedTokens))
        = Infer.joinChars flags.delimiter.data (Infer.selectTokens p.predictedTokens)) :
    Infer.processPrediction flags mapping p
      = Infer.strJoin flags.delimiter (Infer.selectTokens p.predictedTokens) := by
  simp only [Infer.processPrediction, Infer.sentOf, Infer.strJoin, hunk,
    Bool.false_eq_true, if_false, ite_false]
  rw [h1, h2, h3]

/-- Witness for the amended claim C3: on `["hello", "world"]` with default
flags the printed sentence is the plain space-join `"hello world"`. -/
theorem printed_sentence_join_witness :
    Infer.processPrediction {} none (samplePred ["hello", "world"])
      = Infer.strJoin " " ["hello", "world"] :=
  printed_sentence_join {} none (samplePred ["hello", "world"]) rfl
    (by decide) (by decide) (by decide)

/-- The four accumulated beam arrays of a prediction list, in iteration
order. -/
theorem beam_foldl (flags : Infer.Flags) (h : flags.dump_beams.isSome = true) :
    ∀ (preds : List Infer.PredRecord) (acc : Infer.BeamAccum),
      preds.foldl (Infer.beamStep flags) acc
        = { predicted_ids := acc.predicted_ids ++ preds.map (fun p => p.beamPredictedIds),
            beam_parent_ids := acc.beam_parent_ids ++ preds.map (fun p => p.beamParentIds),
            scores := acc.scores ++ preds.map (fun p => p.beamScores),
            log_probs := acc.log_probs ++ preds.map (fun p => p.beamLogProbs) } := by
  intro preds
  induction preds with
  | nil => intro acc; cases acc; simp
  | cons p ps ih =>
    intro acc
    rw [List.foldl_cons, ih (Infer.beamStep flags acc p)]
    unfold Infer.beamStep
    rw [if_pos h]
    cases acc
    simp

/-- Claim C4: when `dump_beams` is set, the written archive holds exactly
the four named arrays `predicted_ids`, `beam_parent_ids`, `scores`,
`log_probs`, each the sequence of the corresponding
`beam_search_output.*` value of every iterated prediction in iteration
order; when `dump_beams` is unset, no archive is written. -/
theorem beam_dump_archive (flags : Infer.Flags) (preds : List Infer.PredRecord) :
    Infer.beamArchiveOf flags preds
      = if flags.dump_beams.isSome then
          some { predicted_ids := preds.map (fun p => p.beamPredictedIds),
                 beam_parent_ids := preds.map (fun p => p.beamParentIds),
                 scores := preds.map (fun p => p.beamScores),
                 log_probs := preds.map (fun p => p.beamLogProbs) }
        else none := by
  simp only [Infer.beamArchiveOf]
  by_cases h : flags.dump_beams.isSome
  · rw [if_pos h, if_pos h, beam_foldl flags h preds Infer.initBeamAccum]
    simp [Infer.initBeamAccum]
  · rw [if_neg h, if_neg h]

/-- Claim C10: when `predicted_tokens` is two-dimensional (beam search),
the tokens used downstream are those of beam index 0 (entry 0 of every
row); a one-dimensional array is used as-is; and the whole decode step
behaves as if the prediction held only the selected tokens. -/
theorem beam_zero_selected :
    (∀ (rows : List (List String)) (i : Nat) (r : List String),
        rows[i]? = some r → r ≠ [] →
        (Infer.selectTokens (Infer.TokArray.two rows))[i]? = r[0]?)
    ∧ (∀ toks : List String, Infer.selectTokens (Infer.TokArray.one toks) = toks)
    ∧ ∀ (flags : Infer.Flags) (m : Option (List (String × String)))
        (p : Infer.PredRecord),
        Infer.processPrediction flags m p
          = Infer.processPrediction flags m
              { p with predictedTokens :=
                  Infer.TokArray.one (Infer.selectTokens p.predictedTokens) } := by
  refine ⟨?_, fun toks => rfl, fun flags m p => rfl⟩
  intro rows i r hr hne
  simp only [Infer.selectTokens, List.getElem?_map, hr, Option.map_some']
  cases r with
  | nil => exact absurd rfl hne
  | cons x xs => simp

/-- Witness for claim C10: on the two-row beam array
`[["a", "b"], ["c", "d"]]` the selected tokens at index 1 are those of
beam 0, i.e. `"c"`. -/
theorem beam_zero_selected_witness :
    (Infer.selectTokens (Infer.TokArray.two [["a", "b"], ["c", "d"]]))[1]?
      = (["c", "d"] : List String)[0]? :=
  beam_zero_selected.1 [["a", "b"], ["c", "d"]] 1 ["c", "d"] (by decide)
    (by decide)

/-- Folding `max` over a rational list stays among the fold's inputs. -/
theorem foldl_max_mem (as : List ℚ) : ∀ a : ℚ, as.foldl max a ∈ a :: as := by
  induction as with
  | nil => intro a; simp
  | cons b bs ih =>
    intro a
    rw [List.foldl_cons]
    rcases List.mem_cons.mp (ih (max a b)) with h2 | h2
    · rw [h2]
      rcases max_choice a b with h | h
      · rw [h]
        exact List.mem_cons_self _ _
      · rw [h]
        exact List.mem_cons_of_mem _ (List.mem_cons_self _ _)
    · exact List.mem_cons_of_mem _ (List.mem_cons_of_mem _ h2)

/-- The argmax index of a non-empty row is a valid index of the row. -/
theorem argmaxIdx_lt_length (row : List ℚ) (h : row ≠ []) :
    Infer.argmaxIdx row < row.length := by
  cases row with
  | nil => exact absurd rfl h
  | cons a as =>
    exact List.indexOf_lt_length.mpr (foldl_max_mem as a)

/-- Claim C8: under UNK replacement, the attention matrix handed to the
replacement function is the original matrix truncated to its first
`source_len - 1` columns, the decode step calls the replacement function
on exactly that matrix, and every attention argmax taken on a (non-empty)
truncated row is strictly below `source_len - 1`, so the final source
position (the `SEQUENCE_END` marker) can never be selected. -/
theorem unk_attention_truncated (flags : Infer.Flags)
    (mapping : Option (List (String × String))) (p : Infer.PredRecord)
    (_hs : 1 ≤ p.sourceLen) (hu : flags.unk_replace = true) :
    (Infer.slicedAttention p
        = p.attentionScores.map (fun row => row.take (p.sourceLen - 1)))
    ∧ (Infer.processPrediction flags mapping p
        = Infer.sentOf flags.delimiter
            (Infer.unk_replace p.sourceTokens
              (Infer.selectTokens p.predictedTokens)
              (Infer.slicedAttention p) mapping))
    ∧ ∀ row ∈ Infer.slicedAttention p, row ≠ [] →
        Infer.argmaxIdx row < p.sourceLen - 1 := by
  refine ⟨rfl, ?_, ?_⟩
  · simp only [Infer.processPrediction, hu, if_true]
  · intro row hrow hne
    obtain ⟨orig, _, horig⟩ := List.mem_map.mp hrow
    have hlen : row.length ≤ p.sourceLen - 1 := by
      rw [← horig, List.length_take]
      exact min_le_left _ _
    exact lt_of_lt_of_le (argmaxIdx_lt_length row hne) hlen

/-- The flags of the claim C8 witness: UNK replacement on. -/
def unkFlags : Infer.Flags := { unk_replace := true }

/-- The prediction of the claim C8 witness: two source positions (a word
and the `SEQUENCE_END` marker) and one attention row. -/
def unkPred : Infer.PredRecord :=
  { predictedTokens := Infer.TokArray.one ["UNK"],
    sourceTokens := ["w", "SEQUENCE_END"], sourceLen := 2,
    attentionScores := [[(1 : ℚ), (3 : ℚ)]], beamPredictedIds := [],
    beamParentIds := [], beamScores := [], beamLogProbs := [] }

/-- Witness for claim C8: with two source positions the truncated
attention row is `[1]` and its argmax index 0 lies strictly before the
final source position. -/
theorem unk_attention_truncated_witness :
    (1 : Nat) ≤ unkPred.sourceLen
    ∧ Infer.argmaxIdx [(1 : ℚ)] < unkPred.sourceLen - 1 :=
  ⟨by decide,
    (unk_attention_truncated unkFlags none unkPred (by decide) rfl).2.2
      [(1 : ℚ)] (by decide) (by decide)⟩

/-- Claim C5: the exponential learning-rate decay is the piecewise
formula: unchanged before `start_decay_at`, exponential in
`(step - start_decay_at) / decay_steps` between the bounds, frozen at the
`stop_decay_at` value past the stop, and never below a given
`min_learning_rate`. -/
theorem lr_decay_piecewise (decay_steps : Nat) (decay_rate lr : ℝ)
    (start stop : Nat) (m : Option ℝ) (step : Nat) (hss : start ≤ stop) :
    (step < start →
      TrainingUtils.exponential_decay decay_steps decay_rate start stop none lr step
        = lr)
    ∧ (start ≤ step → step ≤ stop →
      TrainingUtils.exponential_decay decay_steps decay_rate start stop none lr step
        = lr * decay_rate ^ (((step : ℝ) - (start : ℝ)) / (decay_steps : ℝ)))
    ∧ (stop < step →
      TrainingUtils.exponential_decay decay_steps decay_rate start stop none lr step
        = lr * decay_rate ^ (((stop : ℝ) - (start : ℝ)) / (decay_steps : ℝ)))
    ∧ (∀ mv : ℝ, m = some mv →
      mv ≤ TrainingUtils.exponential_decay decay_steps decay_rate start stop m lr step) := by
  refine ⟨?_, ?_, ?_, ?_⟩
  · intro h
    simp only [TrainingUtils.exponential_decay, if_pos h]
  · intro h1 h2
    simp only [TrainingUtils.exponential_decay, if_neg (Nat.not_lt.mpr h1),
      Nat.min_eq_left h2]
  · intro h
    have hns : ¬step < start := Nat.not_lt.mpr (le_trans hss (le_of_lt h))
    simp only [TrainingUtils.exponential_decay, if_neg hns,
      Nat.min_eq_right (le_of_lt h)]
  · intro mv hmv
    subst hmv
    simp only [TrainingUtils.exponential_decay]
    exact le_max_right _ _

/-- Witness for claim C5, at the values of the repository's decay tests:
rate 0.9, ten decay steps, decay between steps 100 and 1000; at step 115
the in-range formula applies, and with minimum rate 0.01 the result at
step 900 is at least 0.01. -/
theorem lr_decay_piecewise_witness :
    (100 : Nat) ≤ 1000 ∧ (100 : Nat) ≤ 115 ∧ (115 : Nat) ≤ 1000
    ∧ TrainingUtils.exponential_decay 10 0.9 100 1000 none 1 115
        = 1 * (0.9 : ℝ) ^ ((((115 : Nat) : ℝ) - ((100 : Nat) : ℝ)) / ((10 : Nat) : ℝ))
    ∧ (0.01 : ℝ) ≤ TrainingUtils.exponential_decay 10 0.9 100 1000 (some 0.01) 1 900 :=
  ⟨by decide, by decide, by decide,
    (lr_decay_piecewise 10 0.9 1 100 1000 none 115 (by decide)).2.1
      (by decide) (by decide),
    (lr_decay_piecewise 10 0.9 1 100 1000 (some 0.01) 900 (by decide)).2.2.2
      0.01 rfl⟩

/-- Decoding an encoded hyperparameter dictionary recovers it. -/
theorem jFieldsToHparams_map (hp : List (String × Int)) :
    TrainingUtils.jFieldsToHparams
        (hp.map (fun kv => (kv.1, TrainingUtils.JValue.num kv.2))) = some hp := by
  induction hp with
  | nil => rfl
  | cons kv rest ih =>
    obtain ⟨k, n⟩ := kv
    simp [TrainingUtils.jFieldsToHparams, ih]

/-- Claim C6: a `TrainOptions` record round-trips through the model
directory: dumping and loading yields a record with the same `hparams`,
`model_class`, `source_vocab_path` and `target_vocab_path`, also when
`model_class` or `target_vocab_path` is `None`. -/
theorem train_options_roundtrip (o : TrainingUtils.TrainOptions)
    (dir : TrainingUtils.ModelDir) :
    TrainingUtils.TrainOptions.load (o.dump dir) = some o := by
  have hj : ∀ x : Option String,
      TrainingUtils.jToOptStr (TrainingUtils.optStrToJ x) = x := by
    intro x; cases x <;> rfl
  simp [TrainingUtils.TrainOptions.load, TrainingUtils.TrainOptions.dump,
    TrainingUtils.TrainOptions.ofJson, TrainingUtils.TrainOptions.toJson,
    List.lookup, jFieldsToHparams_map, hj]

/-- Claim C7: `get_rnn_cell` raises a `ValueError` exactly when some extra
keyword argument is not an argument of the named cell class's constructor;
when all extra arguments are valid it returns a cell of the named class
whose output size is the requested number of units. -/
theorem rnn_cell_extra_args (sig : TrainingUtils.CellSignature) (n : Nat)
    (extraArgNames : List String) :
    ((∃ e, TrainingUtils.get_rnn_cell sig n extraArgNames = Except.error e) ↔
      ∃ k ∈ extraArgNames, k ∉ sig.ctorArgNames)
    ∧ ((∀ k ∈ extraArgNames, k ∈ sig.ctorArgNames) →
      TrainingUtils.get_rnn_cell sig n extraArgNames
        = Except.ok { className := sig.className, num_units := n })
    ∧ ∀ cell, TrainingUtils.get_rnn_cell sig n extraArgNames = Except.ok cell →
        cell.className = sig.className ∧ cell.output_size = n := by
  cases hf : extraArgNames.find? (fun k => !sig.ctorArgNames.contains k) with
  | none =>
    have hall := List.find?_eq_none.mp hf
    refine ⟨?_, ?_, ?_⟩
    · constructor
      · rintro ⟨e, he⟩
        rw [TrainingUtils.get_rnn_cell, hf] at he
        cases he
      · rintro ⟨k, hk, hnk⟩
        exact absurd (by simpa using hall k hk) hnk
    · intro _
      rw [TrainingUtils.get_rnn_cell, hf]
    · intro cell hcell
      rw [TrainingUtils.get_rnn_cell, hf] at hcell
      cases hcell
      exact ⟨rfl, rfl⟩
  | some k =>
    have hp := List.find?_some hf
    have hmem := List.mem_of_find?_eq_some hf
    refine ⟨?_, ?_, ?_⟩
    · constructor
      · intro _
        exact ⟨k, hmem, by simpa using hp⟩
      · intro _
        rw [TrainingUtils.get_rnn_cell, hf]
        exact ⟨_, rfl⟩
    · intro hvalid
      exact absurd (hvalid k hmem) (by simpa using hp)
    · intro cell hcell
      rw [TrainingUtils.get_rnn_cell, hf] at hcell
      cases hcell
/-- Witness for claim C7: the `LSTMCell`-like signature accepts
`use_peepholes` and `forget_bias`, so construction succeeds with output
size 16. -/
theorem rnn_cell_extra_args_witness :
    TrainingUtils.get_rnn_cell
        { className := "LSTMCell",
          ctorArgNames := ["num_units", "use_peepholes", "forget_bias"] }
        16 ["use_peepholes", "forget_bias"]
      = Except.ok { className := "LSTMCell", num_units := 16 } :=
  (rnn_cell_extra_args
      { className := "LSTMCell",
        ctorArgNames := ["num_units", "use_peepholes", "forget_bias"] }
      16 ["use_peepholes", "forget_bias"]).2.1 (by decide)

/-- Witness for claim C9: on `["a", "SEQUENCE_END", "b"]` the first
`"SEQUENCE_END"` is at index 1 and the computed length is 2. -/
theorem prediction_length_first_end_witness :
    Infer.get_prediction_length ["a", "SEQUENCE_END", "b"] = 1 + 1 :=
  (prediction_length_first_end ["a", "SEQUENCE_END", "b"]).1 1 (by decide)
    (by decide)

end Claims
